import Mathlib

/-!
Shallow embedding of `src/AP/main/main.c` (ESP-IDF blink firmware).

The program configures GPIO pin `BLINK_GPIO = GPIO_NUM_2` as an output and
then loops forever: set level 0, log "LED OFF", delay 500 ms; set level 1,
log "LED ON", delay 500 ms.  We embed it twice, both directly from the
source:

* as an infinite *event trace* `trace : Nat → Event` (two initialization
  events followed by the six-event loop body repeated forever), and
* as a *step machine* on program counters `PC` with an event emitted at
  each counter, so that control-flow facts (the `while (1)` loop never
  exits, results of driver calls are discarded, no mutable program state)
  can be stated about the machine.

A lemma (`emit_pcAt_eq_trace`) ties the two embeddings together.
-/

/-- `GPIO_NUM_2` from `driver/gpio.h`: hardware pin number 2. -/
def GPIO_NUM_2 : Nat := 2

/-- `#define BLINK_GPIO GPIO_NUM_2` (main.c line 8). -/
def BLINK_GPIO : Nat := GPIO_NUM_2

/-- `static const char *TAG = "blink";` (main.c line 10). -/
def TAG : String := "blink"

/-- GPIO direction modes from `driver/gpio.h` (the source only uses
`GPIO_MODE_OUTPUT`). -/
inductive gpio_mode_t where
  | GPIO_MODE_DISABLE
  | GPIO_MODE_INPUT
  | GPIO_MODE_OUTPUT
  | GPIO_MODE_OUTPUT_OD
  | GPIO_MODE_INPUT_OUTPUT_OD
  | GPIO_MODE_INPUT_OUTPUT
deriving DecidableEq, Repr

/-- ESP-IDF log severities from `esp_log.h`; `ESP_LOGI` logs at `Info`. -/
inductive esp_log_level_t where
  | Error
  | Warn
  | Info
  | Debug
  | Verbose
deriving DecidableEq, Repr

/-- One observable action of the program.  `vTaskDelay ms` records the call
`vTaskDelay(pdMS_TO_TICKS(ms))`, i.e. the millisecond argument handed to
`pdMS_TO_TICKS`. -/
inductive Event where
  | gpio_reset_pin (pin : Nat)
  | gpio_set_direction (pin : Nat) (mode : gpio_mode_t)
  | gpio_set_level (pin : Nat) (level : Nat)
  | esp_log (lvl : esp_log_level_t) (tag : String) (msg : String)
  | vTaskDelay (ms : Nat)
deriving DecidableEq, Repr

/-- The two statements executed once before the loop (main.c lines 15-16). -/
def initEvents : List Event :=
  [Event.gpio_reset_pin BLINK_GPIO,
   Event.gpio_set_direction BLINK_GPIO gpio_mode_t.GPIO_MODE_OUTPUT]

/-- The body of `while (1) { ... }` (main.c lines 18-26), in program order. -/
def loopBody : List Event :=
  [Event.gpio_set_level BLINK_GPIO 0,
   Event.esp_log esp_log_level_t.Info TAG "LED OFF",
   Event.vTaskDelay 500,
   Event.gpio_set_level BLINK_GPIO 1,
   Event.esp_log esp_log_level_t.Info TAG "LED ON",
   Event.vTaskDelay 500]

/-- The infinite event trace of `app_main`: the initialization events, then
the loop body repeated forever. -/
def trace (n : Nat) : Event :=
  if n < initEvents.length then
    initEvents.getD n (Event.gpio_reset_pin BLINK_GPIO)
  else
    loopBody.getD ((n - initEvents.length) % loopBody.length)
      (Event.gpio_set_level BLINK_GPIO 0)

/-- Event classifiers used to state the claims. -/
def Event.isSetLevel : Event → Bool
  | .gpio_set_level _ _ => true
  | _ => false

def Event.isLog : Event → Bool
  | .esp_log _ _ _ => true
  | _ => false

def Event.isDelay : Event → Bool
  | .vTaskDelay _ => true
  | _ => false

/-- A pin-configuration event (`gpio_reset_pin` or `gpio_set_direction`). -/
def Event.isConfig : Event → Bool
  | .gpio_reset_pin _ => true
  | .gpio_set_direction _ _ => true
  | _ => false

/-- The pin targeted by a GPIO driver call, if the event is one. -/
def Event.gpioPin : Event → Option Nat
  | .gpio_reset_pin p => some p
  | .gpio_set_direction p _ => some p
  | .gpio_set_level p _ => some p
  | _ => none

/-- Program counters of `app_main`: one per statement, plus `pc_returned`
for the (unreachable) state after `app_main` returns. -/
inductive PC where
  | pc_reset      -- gpio_reset_pin(BLINK_GPIO);
  | pc_setdir     -- gpio_set_direction(BLINK_GPIO, GPIO_MODE_OUTPUT);
  | pc_low        -- gpio_set_level(BLINK_GPIO, 0);
  | pc_logOff     -- ESP_LOGI(TAG, "LED OFF");
  | pc_delay1     -- vTaskDelay(pdMS_TO_TICKS(500));
  | pc_high       -- gpio_set_level(BLINK_GPIO, 1);
  | pc_logOn      -- ESP_LOGI(TAG, "LED ON");
  | pc_delay2     -- vTaskDelay(pdMS_TO_TICKS(500));
  | pc_returned   -- after app_main returns (no statement jumps here)
deriving DecidableEq, Repr

/-- Control flow of `app_main`.  The `while (1)` condition is the constant
`1`, so the end of the body jumps back to its head and no statement falls
through to `pc_returned`. -/
def step : PC → PC
  | .pc_reset => .pc_setdir
  | .pc_setdir => .pc_low
  | .pc_low => .pc_logOff
  | .pc_logOff => .pc_delay1
  | .pc_delay1 => .pc_high
  | .pc_high => .pc_logOn
  | .pc_logOn => .pc_delay2
  | .pc_delay2 => .pc_low
  | .pc_returned => .pc_returned

/-- The event performed by the statement at each program counter. -/
def emit : PC → Option Event
  | .pc_reset => some (Event.gpio_reset_pin BLINK_GPIO)
  | .pc_setdir =>
      some (Event.gpio_set_direction BLINK_GPIO gpio_mode_t.GPIO_MODE_OUTPUT)
  | .pc_low => some (Event.gpio_set_level BLINK_GPIO 0)
  | .pc_logOff => some (Event.esp_log esp_log_level_t.Info TAG "LED OFF")
  | .pc_delay1 => some (Event.vTaskDelay 500)
  | .pc_high => some (Event.gpio_set_level BLINK_GPIO 1)
  | .pc_logOn => some (Event.esp_log esp_log_level_t.Info TAG "LED ON")
  | .pc_delay2 => some (Event.vTaskDelay 500)
  | .pc_returned => none

/-- Program counters inside the `while (1)` body. -/
def inLoop : PC → Bool
  | .pc_low | .pc_logOff | .pc_delay1 | .pc_high | .pc_logOn | .pc_delay2 =>
      true
  | _ => false

/-- Control flow of `app_main` with the `esp_err_t` results of the driver
calls made explicit: `res pc` is the value returned by the call executed at
`pc`.  The source discards every such result (the calls appear as bare
expression statements), so each case binds the result and ignores it. -/
def stepR (res : PC → Int) : PC → PC
  | .pc_reset => let _ := res .pc_reset; .pc_setdir
  | .pc_setdir => let _ := res .pc_setdir; .pc_low
  | .pc_low => let _ := res .pc_low; .pc_logOff
  | .pc_logOff => .pc_delay1
  | .pc_delay1 => .pc_high
  | .pc_high => let _ := res .pc_high; .pc_logOn
  | .pc_logOn => .pc_delay2
  | .pc_delay2 => .pc_low
  | .pc_returned => .pc_returned

/-- One step of program plus peripheral: the peripheral remembers the pin
level last written; `gpio_set_level` overwrites it, nothing else touches it.
The program's next counter is `step` of the current one and never reads the
peripheral's level. -/
def sysStep (s : PC × Nat) : PC × Nat :=
  (step s.1,
   match emit s.1 with
   | some (Event.gpio_set_level _ l) => l
   | _ => s.2)

/-- The event emitted from a combined program/peripheral state: it depends
only on the program counter, never on the peripheral's stored level. -/
def sysEmit (s : PC × Nat) : Option Event := emit s.1

/-- Closed form for the program counter reached after `n` steps from
`pc_reset`. -/
def pcAt (n : Nat) : PC :=
  if n = 0 then PC.pc_reset
  else if n = 1 then PC.pc_setdir
  else
    [PC.pc_low, PC.pc_logOff, PC.pc_delay1, PC.pc_high, PC.pc_logOn,
     PC.pc_delay2].getD ((n - 2) % 6) PC.pc_low

theorem trace_loop (m : Nat) :
    trace (2 + m) =
      loopBody.getD (m % 6) (Event.gpio_set_level BLINK_GPIO 0) := by
  have h : ¬ (2 + m < initEvents.length) := by simp [initEvents]
  simp only [trace, h, if_false, initEvents, loopBody]
  norm_num

theorem pcAt_step (n : Nat) : pcAt (n + 1) = step (pcAt n) := by
  match n with
  | 0 => rfl
  | 1 => rfl
  | m + 2 =>
    have h2 : ¬ (m + 2 = 0) := by omega
    have h3 : ¬ (m + 2 = 1) := by omega
    have h4 : ¬ (m + 2 + 1 = 0) := by omega
    have h5 : ¬ (m + 2 + 1 = 1) := by omega
    simp only [pcAt, h2, h3, h4, h5, if_false]
    have e1 : m + 2 - 2 = m := by omega
    have e2 : m + 2 + 1 - 2 = m + 1 := by omega
    rw [e1, e2]
    have h6 : m % 6 = 0 ∨ m % 6 = 1 ∨ m % 6 = 2 ∨ m % 6 = 3 ∨ m % 6 = 4 ∨
        m % 6 = 5 := by omega
    rcases h6 with h | h | h | h | h | h <;>
      · have h7 : (m + 1) % 6 = (m % 6 + 1) % 6 := by omega
        rw [h7, h]
        rfl

theorem pcAt_correct (n : Nat) : step^[n] PC.pc_reset = pcAt n := by
  induction n with
  | zero => rfl
  | succ k ih =>
    rw [Function.iterate_succ_apply', ih, pcAt_step]

theorem emit_pcAt_eq_trace (n : Nat) : emit (pcAt n) = some (trace n) := by
  match n with
  | 0 => rfl
  | 1 => rfl
  | m + 2 =>
    have h : m + 2 = 2 + m := by omega
    rw [h, trace_loop]
    have h2 : ¬ (2 + m = 0) := by omega
    have h3 : ¬ (2 + m = 1) := by omega
    simp only [pcAt, h2, h3, if_false]
    have e1 : 2 + m - 2 = m := by omega
    rw [e1]
    have h6 : m % 6 = 0 ∨ m % 6 = 1 ∨ m % 6 = 2 ∨ m % 6 = 3 ∨ m % 6 = 4 ∨
        m % 6 = 5 := by omega
    rcases h6 with h | h | h | h | h | h <;> rw [h] <;> rfl

/-- Claim C1: after the one-time initialization (trace positions 0 and 1),
the event trace is the infinite repetition of the six-step cycle
set-low, log, delay, set-high, log, delay; consequently the level written
at the k-th transition alternates 0, 1, 0, 1, ... and each transition is
followed by exactly one log before the next delay. -/
theorem trace_is_six_step_cycle :
    (∀ n : Nat, trace (2 + n) =
        loopBody.getD (n % 6) (Event.gpio_set_level BLINK_GPIO 0)) ∧
    loopBody =
      [Event.gpio_set_level BLINK_GPIO 0,
       Event.esp_log esp_log_level_t.Info TAG "LED OFF",
       Event.vTaskDelay 500,
       Event.gpio_set_level BLINK_GPIO 1,
       Event.esp_log esp_log_level_t.Info TAG "LED ON",
       Event.vTaskDelay 500] ∧
    (∀ k : Nat, trace (2 + 3 * k) = Event.gpio_set_level BLINK_GPIO (k % 2)) ∧
    (∀ k : Nat, (trace (2 + 3 * k + 1)).isLog = true ∧
        (trace (2 + 3 * k + 2)).isDelay = true) := by
  refine ⟨trace_loop, rfl, ?_, ?_⟩
  · intro k
    rw [trace_loop]
    have h2 : k % 2 = 0 ∨ k % 2 = 1 := by omega
    rcases h2 with h | h
    · rw [show 3 * k % 6 = 0 by omega, h]
      rfl
    · rw [show 3 * k % 6 = 3 by omega, h]
      rfl
  · intro k
    have e1 : 2 + 3 * k + 1 = 2 + (3 * k + 1) := by omega
    have e2 : 2 + 3 * k + 2 = 2 + (3 * k + 2) := by omega
    rw [e1, e2, trace_loop, trace_loop]
    have h2 : k % 2 = 0 ∨ k % 2 = 1 := by omega
    rcases h2 with h | h
    · rw [show (3 * k + 1) % 6 = 1 by omega,
          show (3 * k + 2) % 6 = 2 by omega]
      exact ⟨rfl, rfl⟩
    · rw [show (3 * k + 1) % 6 = 4 by omega,
          show (3 * k + 2) % 6 = 5 by omega]
      exact ⟨rfl, rfl⟩

/-- Claim C2: the `while (1)` loop never exits: every program counter in
the loop body steps to a program counter in the loop body, and no number of
steps from the start of `app_main` ever reaches the returned state. -/
theorem while_one_never_exits :
    (∀ s : PC, inLoop s = true → inLoop (step s) = true) ∧
    (∀ n : Nat, step^[n] PC.pc_reset ≠ PC.pc_returned) := by
  constructor
  · intro s hs
    revert hs
    cases s <;> decide
  · intro n
    rw [pcAt_correct]
    by_cases h0 : n = 0
    · subst h0; decide
    by_cases h1 : n = 1
    · subst h1; decide
    simp only [pcAt, h0, h1, if_false]
    have h6 : (n - 2) % 6 = 0 ∨ (n - 2) % 6 = 1 ∨ (n - 2) % 6 = 2 ∨
        (n - 2) % 6 = 3 ∨ (n - 2) % 6 = 4 ∨ (n - 2) % 6 = 5 := by omega
    rcases h6 with h | h | h | h | h | h <;> rw [h] <;> decide

theorem while_one_never_exits_witness :
    inLoop PC.pc_low = true ∧
      (inLoop (step PC.pc_low) = true ∧
        step^[5] PC.pc_reset ≠ PC.pc_returned) :=
  ⟨by decide,
   while_one_never_exits.1 PC.pc_low (by decide),
   while_one_never_exits.2 5⟩

/-- Claim C3: pin configuration (reset then set direction to output) occurs
exactly at trace positions 0 and 1 — once, and strictly before every level
write, log and delay. -/
theorem config_once_before_loop :
    trace 0 = Event.gpio_reset_pin BLINK_GPIO ∧
    trace 1 =
      Event.gpio_set_direction BLINK_GPIO gpio_mode_t.GPIO_MODE_OUTPUT ∧
    (∀ n : Nat, (trace n).isConfig = true → n < 2) ∧
    (∀ n : Nat,
      ((trace n).isSetLevel || (trace n).isLog || (trace n).isDelay) = true →
        2 ≤ n) := by
  refine ⟨rfl, rfl, ?_, ?_⟩
  · intro n h
    by_contra hlt
    obtain ⟨m, rfl⟩ : ∃ m, n = 2 + m := ⟨n - 2, by omega⟩
    rw [trace_loop] at h
    have h6 : m % 6 = 0 ∨ m % 6 = 1 ∨ m % 6 = 2 ∨ m % 6 = 3 ∨ m % 6 = 4 ∨
        m % 6 = 5 := by omega
    rcases h6 with h' | h' | h' | h' | h' | h' <;> rw [h'] at h <;>
      exact absurd h (by decide)
  · intro n h
    by_contra hlt
    have h2 : n = 0 ∨ n = 1 := by omega
    rcases h2 with h' | h' <;> subst h' <;> exact absurd h (by decide)

theorem config_once_before_loop_witness :
    (trace 0).isConfig = true ∧ (0 : Nat) < 2 :=
  ⟨by decide, config_once_before_loop.2.2.1 0 (by decide)⟩

/-- Claim C4: every delay in the trace requests exactly 500 ms; level
writes occur exactly at positions 2 + 3k; and between two consecutive level
writes the trace holds one log (not a delay) and then exactly one 500 ms
delay. -/
theorem delays_all_500ms :
    (∀ n ms : Nat, trace n = Event.vTaskDelay ms → ms = 500) ∧
    (∀ n : Nat, (trace n).isSetLevel = true ↔ 2 ≤ n ∧ (n - 2) % 3 = 0) ∧
    (∀ k : Nat, (trace (2 + 3 * k + 1)).isDelay = false ∧
        trace (2 + 3 * k + 2) = Event.vTaskDelay 500) := by
  refine ⟨?_, ?_, ?_⟩
  · intro n ms h
    match n with
    | 0 => exact Event.noConfusion h
    | 1 => exact Event.noConfusion h
    | m + 2 =>
      rw [show m + 2 = 2 + m by omega, trace_loop] at h
      have h6 : m % 6 = 0 ∨ m % 6 = 1 ∨ m % 6 = 2 ∨ m % 6 = 3 ∨
          m % 6 = 4 ∨ m % 6 = 5 := by omega
      rcases h6 with h' | h' | h' | h' | h' | h' <;> rw [h'] at h
      · exact Event.noConfusion h
      · exact Event.noConfusion h
      · have h2 : Event.vTaskDelay 500 = Event.vTaskDelay ms := h
        injection h2 with h3
        exact h3.symm
      · exact Event.noConfusion h
      · exact Event.noConfusion h
      · have h2 : Event.vTaskDelay 500 = Event.vTaskDelay ms := h
        injection h2 with h3
        exact h3.symm
  · intro n
    constructor
    · intro h
      match n with
      | 0 => exact absurd h (by decide)
      | 1 => exact absurd h (by decide)
      | m + 2 =>
        rw [show m + 2 = 2 + m by omega, trace_loop] at h
        have h6 : m % 6 = 0 ∨ m % 6 = 1 ∨ m % 6 = 2 ∨ m % 6 = 3 ∨
            m % 6 = 4 ∨ m % 6 = 5 := by omega
        rcases h6 with h' | h' | h' | h' | h' | h' <;> rw [h'] at h <;>
          first
            | exact ⟨by omega, by omega⟩
            | exact absurd h (by decide)
    · rintro ⟨h2, h3⟩
      obtain ⟨m, rfl⟩ : ∃ m, n = 2 + m := ⟨n - 2, by omega⟩
      rw [trace_loop]
      have h6 : m % 6 = 0 ∨ m % 6 = 3 := by omega
      rcases h6 with h' | h' <;> rw [h'] <;> decide
  · intro k
    have e1 : 2 + 3 * k + 1 = 2 + (3 * k + 1) := by omega
    have e2 : 2 + 3 * k + 2 = 2 + (3 * k + 2) := by omega
    rw [e1, e2, trace_loop, trace_loop]
    have h2 : k % 2 = 0 ∨ k % 2 = 1 := by omega
    rcases h2 with h | h
    · rw [show (3 * k + 1) % 6 = 1 by omega,
          show (3 * k + 2) % 6 = 2 by omega]
      exact ⟨rfl, rfl⟩
    · rw [show (3 * k + 1) % 6 = 4 by omega,
          show (3 * k + 2) % 6 = 5 by omega]
      exact ⟨rfl, rfl⟩

theorem delays_all_500ms_witness :
    trace 4 = Event.vTaskDelay 500 ∧ (500 : Nat) = 500 :=
  ⟨by decide, delays_all_500ms.1 4 500 (by decide)⟩

/-- Claim C5: no error handling exists: the `esp_err_t` results of the
driver calls never influence control flow — `stepR`, the control flow with
each call's result made explicit, equals `step` for every assignment of
results, and any two result assignments yield the same successor. -/
theorem driver_results_discarded :
    (∀ res : PC → Int, ∀ s : PC, stepR res s = step s) ∧
    (∀ res res' : PC → Int, ∀ s : PC, stepR res s = stepR res' s) := by
  constructor
  · intro res s
    cases s <;> rfl
  · intro res res' s
    cases s <;> rfl

/-- Claim C6: every GPIO driver call in the trace targets the single pin
`BLINK_GPIO = GPIO_NUM_2 = 2`; no other pin is ever configured or
written. -/
theorem all_gpio_ops_target_pin2 :
    BLINK_GPIO = GPIO_NUM_2 ∧ GPIO_NUM_2 = 2 ∧
    (∀ n p : Nat, (trace n).gpioPin = some p → p = 2) := by
  refine ⟨rfl, rfl, ?_⟩
  intro n p h
  match n with
  | 0 =>
    have h2 : some 2 = some p := h
    injection h2 with h3
    exact h3.symm
  | 1 =>
    have h2 : some 2 = some p := h
    injection h2 with h3
    exact h3.symm
  | m + 2 =>
    rw [show m + 2 = 2 + m by omega, trace_loop] at h
    have h6 : m % 6 = 0 ∨ m % 6 = 1 ∨ m % 6 = 2 ∨ m % 6 = 3 ∨
        m % 6 = 4 ∨ m % 6 = 5 := by omega
    rcases h6 with h' | h' | h' | h' | h' | h' <;> rw [h'] at h
    · have h2 : some 2 = some p := h
      injection h2 with h3
      exact h3.symm
    · exact Option.noConfusion h
    · exact Option.noConfusion h
    · have h2 : some 2 = some p := h
      injection h2 with h3
      exact h3.symm
    · exact Option.noConfusion h
    · exact Option.noConfusion h

theorem all_gpio_ops_target_pin2_witness :
    (trace 0).gpioPin = some 2 ∧ (2 : Nat) = 2 :=
  ⟨by decide, all_gpio_ops_target_pin2.2.2 0 2 (by decide)⟩

/-- Claim C7: the pin's level is not tracked in any program variable: the
next program counter and the emitted event are independent of the
peripheral's stored level, and every level the program writes is the
constant 0 or the constant 1 determined by the program counter alone. -/
theorem pin_level_untracked :
    (∀ pc : PC, ∀ lv lv' : Nat, (sysStep (pc, lv)).1 = (sysStep (pc, lv')).1) ∧
    (∀ pc : PC, ∀ lv lv' : Nat, sysEmit (pc, lv) = sysEmit (pc, lv')) ∧
    (∀ pc : PC, ∀ pin l : Nat,
      emit pc = some (Event.gpio_set_level pin l) → l = 0 ∨ l = 1) := by
  refine ⟨fun pc lv lv' => rfl, fun pc lv lv' => rfl, ?_⟩
  intro pc pin l h
  cases pc <;> simp [emit] at h <;> omega

theorem pin_level_untracked_witness :
    emit PC.pc_low = some (Event.gpio_set_level 2 0) ∧
      ((0 : Nat) = 0 ∨ (0 : Nat) = 1) :=
  ⟨by decide, pin_level_untracked.2.2 PC.pc_low 2 0 (by decide)⟩

/-- Claim C8: every log in the trace is emitted at the informational level
with the single tag "blink"; no other level or tag ever appears. -/
theorem logs_all_info_blink :
    TAG = "blink" ∧
    (∀ n : Nat, ∀ lvl : esp_log_level_t, ∀ tg msg : String,
      trace n = Event.esp_log lvl tg msg →
        lvl = esp_log_level_t.Info ∧ tg = TAG) := by
  refine ⟨rfl, ?_⟩
  intro n lvl tg msg h
  match n with
  | 0 => exact Event.noConfusion h
  | 1 => exact Event.noConfusion h
  | m + 2 =>
    rw [show m + 2 = 2 + m by omega, trace_loop] at h
    have h6 : m % 6 = 0 ∨ m % 6 = 1 ∨ m % 6 = 2 ∨ m % 6 = 3 ∨
        m % 6 = 4 ∨ m % 6 = 5 := by omega
    rcases h6 with h' | h' | h' | h' | h' | h' <;> rw [h'] at h
    · exact Event.noConfusion h
    · have h2 : Event.esp_log esp_log_level_t.Info TAG "LED OFF" =
          Event.esp_log lvl tg msg := h
      injection h2 with a b c
      exact ⟨a.symm, b.symm⟩
    · exact Event.noConfusion h
    · exact Event.noConfusion h
    · have h2 : Event.esp_log esp_log_level_t.Info TAG "LED ON" =
          Event.esp_log lvl tg msg := h
      injection h2 with a b c
      exact ⟨a.symm, b.symm⟩
    · exact Event.noConfusion h

theorem logs_all_info_blink_witness :
    trace 3 = Event.esp_log esp_log_level_t.Info TAG "LED OFF" ∧
      (esp_log_level_t.Info = esp_log_level_t.Info ∧ TAG = TAG) :=
  ⟨by decide, logs_all_info_blink.2 3 esp_log_level_t.Info TAG "LED OFF"
    (by decide)⟩

/-- Claim C9: the first level write after initialization is at trace
position 2 and sets the pin to 0: no level write occurs earlier, so every
execution begins its blink cycle with the off phase. -/
theorem first_write_is_off :
    trace 2 = Event.gpio_set_level BLINK_GPIO 0 ∧
    (∀ n : Nat, n < 2 → (trace n).isSetLevel = false) := by
  refine ⟨rfl, ?_⟩
  intro n h
  have h2 : n = 0 ∨ n = 1 := by omega
  rcases h2 with h' | h' <;> subst h' <;> decide

theorem first_write_is_off_witness :
    (0 : Nat) < 2 ∧ (trace 0).isSetLevel = false :=
  ⟨by decide, first_write_is_off.2 0 (by decide)⟩

/-- Claim C10: each log faithfully reports the level just written: a write
of level 0 is immediately followed by the "LED OFF" log and a write of
level 1 by the "LED ON" log; no other levels are ever written. -/
theorem log_matches_written_level :
    ∀ n l : Nat, trace n = Event.gpio_set_level BLINK_GPIO l →
      (l = 0 ∧
        trace (n + 1) = Event.esp_log esp_log_level_t.Info TAG "LED OFF") ∨
      (l = 1 ∧
        trace (n + 1) = Event.esp_log esp_log_level_t.Info TAG "LED ON") := by
  intro n l h
  match n with
  | 0 => exact Event.noConfusion h
  | 1 => exact Event.noConfusion h
  | m + 2 =>
    rw [show m + 2 = 2 + m by omega, trace_loop] at h
    have e : m + 2 + 1 = 2 + (m + 1) := by omega
    rw [e, trace_loop]
    have h6 : m % 6 = 0 ∨ m % 6 = 1 ∨ m % 6 = 2 ∨ m % 6 = 3 ∨
        m % 6 = 4 ∨ m % 6 = 5 := by omega
    rcases h6 with h' | h' | h' | h' | h' | h' <;> rw [h'] at h
    · left
      have h2 : Event.gpio_set_level BLINK_GPIO 0 =
          Event.gpio_set_level BLINK_GPIO l := h
      injection h2 with _ hl
      refine ⟨hl.symm, ?_⟩
      rw [show (m + 1) % 6 = 1 by omega]
      rfl
    · exact Event.noConfusion h
    · exact Event.noConfusion h
    · right
      have h2 : Event.gpio_set_level BLINK_GPIO 1 =
          Event.gpio_set_level BLINK_GPIO l := h
      injection h2 with _ hl
      refine ⟨hl.symm, ?_⟩
      rw [show (m + 1) % 6 = 4 by omega]
      rfl
    · exact Event.noConfusion h
    · exact Event.noConfusion h

theorem log_matches_written_level_witness :
    trace 2 = Event.gpio_set_level BLINK_GPIO 0 ∧
      (((0 : Nat) = 0 ∧
          trace 3 = Event.esp_log esp_log_level_t.Info TAG "LED OFF") ∨
        ((0 : Nat) = 1 ∧
          trace 3 = Event.esp_log esp_log_level_t.Info TAG "LED ON")) :=
  ⟨by decide, log_matches_written_level 2 0 (by decide)⟩
